import Mathlib

/-!
Verification of `esnlm/readouts/logistic.py` (class `LogisticRegression`).

The embedding mirrors the source file.  Rational numbers stand in for
numpy floats; matrices are lists of rows.  The routines the source file
imports from outside (`esnlm.utils.softmax`, `esnlm.optimization.gradient`,
`esnlm.optimization.hessian`, `esnlm.optimization.newton_raphson`,
`scipy.optimize.minimize`) and the transcendental tail of the objective
(`sum(log(prod(post**y, axis=1) + 1e-7))`) are kept abstract as fields of
`NumericsOps`; the theorems about `fit` hold for every behaviour of them.

Observable effects of `fit` are made explicit: the value returned (or the
exception escaping), the successive assignments to `self.params`, the
progress text printed, and the numpy matrix operations (`dot`, `reshape`)
attempted by the code itself, in order.
-/

namespace Esnlm

/-- A numpy 2-D array of floats, as a list of rows of rationals. -/
abbrev Mat : Type := List (List ℚ)

/-- A numpy matrix operation attempted by the code of `fit` itself. -/
inductive MatOp
  | dot
  | reshape
deriving DecidableEq, Repr

/-- Exceptions observable during `fit`.
`dimMismatch` is the error numpy raises from inside `dot`/`reshape` on
incompatible dimensions; `stepFailure` is an exception escaping the
`newton_raphson` step; `shapeMismatch` is the dedicated pre-flight
shape-validation error the specification posits (no code in the source
produces it — it is declared so the property can be stated). -/
inductive PyError
  | dimMismatch
  | shapeMismatch
  | stepFailure
deriving DecidableEq, Repr

instance {ε α : Type} [DecidableEq ε] [DecidableEq α] : DecidableEq (Except ε α) :=
  fun a b =>
    match a, b with
    | .error e1, .error e2 =>
        if h : e1 = e2 then .isTrue (by rw [h])
        else .isFalse (fun hc => by cases hc; exact h rfl)
    | .ok x, .ok y =>
        if h : x = y then .isTrue (by rw [h])
        else .isFalse (fun hc => by cases hc; exact h rfl)
    | .error _, .ok _ => .isFalse (fun hc => by cases hc)
    | .ok _, .error _ => .isFalse (fun hc => by cases hc)

/-- Dot product of two vectors (rows), truncating to the shorter one. -/
def dotProd (a b : List ℚ) : ℚ := (List.zipWith (· * ·) a b).sum

/-- Column count of a matrix (length of its first row, 0 when empty). -/
def colsOf (m : Mat) : ℕ := (m.headD []).length

/-- Column `j` of a matrix, padding missing entries with 0. -/
def getCol (m : Mat) (j : ℕ) : List ℚ := m.map (fun r => r.getD j 0)

/-- Matrix product (total function; only used after the dimension check). -/
def matMul (a b : Mat) : Mat :=
  a.map (fun r => (List.range (colsOf b)).map (fun j => dotProd r (getCol b j)))

/-- Entrywise negation of a matrix. -/
def matNeg (m : Mat) : Mat := m.map (fun r => r.map (fun v => -v))

/-- Split a flat list into `r` rows of `c` entries each. -/
def chunkRows (c : ℕ) : ℕ → List ℚ → Mat
  | 0, _ => []
  | r + 1, xs => xs.take c :: chunkRows c r (xs.drop c)

/-- `np.dot(a, b)`: raises a dimension error unless every row of `a` has as
many entries as `b` has rows. -/
def dotChk (a b : Mat) : Except PyError Mat :=
  if a.all (fun r => r.length = b.length) then .ok (matMul a b)
  else .error .dimMismatch

/-- `m.reshape((r, c))`: raises a dimension error unless the number of
entries is exactly `r * c`. -/
def reshapeChk (r c : ℕ) (m : Mat) : Except PyError Mat :=
  if (m.flatten).length = r * c then .ok (chunkRows c r m.flatten)
  else .error .dimMismatch

/-- The numerical routines `fit` uses but whose code lives outside the
source file: `esnlm.utils.softmax`, the tail of `_objective_function`
after the matrix product (`sum(log(prod(softmax(..)**y, axis=1) + 1e-7))`,
transcendental, hence abstract), `esnlm.optimization.gradient` and
`hessian` (arguments `x`, `y`, `post`, weight vector), the
`newton_raphson` step (arguments `grad`, `hess`, `params`, objective
callback; `none` models an exception) and `scipy.optimize.minimize`
(arguments objective, initial flat parameters, jacobian, hessian, method
string; returns `res.x`). -/
structure NumericsOps where
  softmax : Mat → Mat
  loglikTail : Mat → Mat → ℚ
  gradient : Mat → Mat → Mat → List ℚ → Mat
  hessian : Mat → Mat → Mat → List ℚ → Mat
  newton_raphson : Mat → Mat → Mat → (Mat → Option ℚ) → Option Mat
  minimize : (List ℚ → Option ℚ) → List ℚ → (List ℚ → Option Mat) →
      (List ℚ → Option Mat) → String → List ℚ

/-- The observable side effects accumulated during a `fit` call:
assignments to `self.params`, printed progress text, and matrix
operations attempted by the code of `fit` itself. -/
structure Log where
  writes : List Mat
  prints : List String
  matOps : List MatOp
deriving DecidableEq, Repr

/-- The empty log, at entry to `fit`. -/
def Log.nil : Log := ⟨[], [], []⟩

/-- Record one attempted matrix operation. -/
def Log.op (lg : Log) (o : MatOp) : Log := { lg with matOps := lg.matOps ++ [o] }

/-- Record one line (well, fragment — Python 2 `print x,`) of progress text. -/
def Log.say (lg : Log) (s : String) : Log := { lg with prints := lg.prints ++ [s] }

/-- Record one assignment to `self.params`. -/
def Log.store (lg : Log) (m : Mat) : Log := { lg with writes := lg.writes ++ [m] }

/-- The `LogisticRegression` object: `input_dim`, `output_dim`, `verbose`
and the stored parameter matrix `self.params`. -/
structure LogisticRegression where
  input_dim : ℕ
  output_dim : ℕ
  verbose : Bool
  params : Mat
deriving DecidableEq, Repr

/-- `self.params.shape[0]`. -/
def pRows (st : LogisticRegression) : ℕ := st.params.length

/-- `self.params.shape[1]`. -/
def pCols (st : LogisticRegression) : ℕ := colsOf st.params

/-- `__init__`: stores `input_dim`, `output_dim`, `verbose` and sets
`self.params = 3*(-1 + 2*np.random.rand(input_dim, output_dim))/np.sqrt(input_dim)`.
The numpy random source is an external collaborator, so the draws are
abstracted as `rand`, and `1/np.sqrt(input_dim)` is irrational for most
`input_dim`, hence not representable as a rational constant: it is
abstracted as the scalar `invSqrt`.  The `input_dim × output_dim` shape
and the affine form of every entry are represented exactly. -/
def initLR (d k : ℕ) (verbose : Bool) (rand : ℕ → ℕ → ℚ) (invSqrt : ℚ) :
    LogisticRegression :=
  ⟨d, k, verbose,
    (List.range d).map (fun i => (List.range k).map (fun j =>
      3 * (-1 + 2 * rand i j) * invSqrt))⟩

/-- The `y` argument of `fit`: either a Python list of integer class
labels, or a numpy array. -/
inductive Target
  | labels : List ℕ → Target
  | arr : Mat → Target
deriving DecidableEq, Repr

/-- Row `i` of `np.eye(k)`. -/
def eyeRow (k i : ℕ) : List ℚ := (List.range k).map (fun j => if j = i then (1 : ℚ) else 0)

/-- `np.eye(output_dim)[y]` for a list `y` of labels (labels are assumed in
range; an out-of-range label would raise in numpy). -/
def expandLabels (k : ℕ) (ys : List ℕ) : Mat := ys.map (eyeRow k)

/-- The head of `fit`: `if type(y) == type([]): y = np.eye(self.output_dim)[y]`.
A Python list is expanded to one-hot rows; a numpy array is used as-is. -/
def resolveTarget (k : ℕ) : Target → Mat
  | .labels ys => expandLabels k ys
  | .arr m => m

/-- `_objective_function(params)` evaluated directly by the code of `fit`:
the value (or the numpy exception), and the matrix operations attempted —
`params.reshape(self.params.shape)` then `np.dot(x, ...)`; `softmax` and
the transcendental tail are abstract. -/
def objCore (ops : NumericsOps) (r c : ℕ) (x y : Mat) (p : Mat) :
    Except PyError ℚ × List MatOp :=
  match reshapeChk r c p with
  | .error e => (.error e, [.reshape])
  | .ok m =>
      match dotChk x m with
      | .error e => (.error e, [.reshape, .dot])
      | .ok xp => (.ok (ops.loglikTail (ops.softmax xp) y), [.reshape, .dot])

/-- `_objective_function` with its attempted matrix operations appended to
the running log. -/
def objEval (ops : NumericsOps) (r c : ℕ) (x y : Mat) (p : Mat) (lg : Log) :
    Except PyError ℚ × Log :=
  ((objCore ops r c x y p).1,
    { lg with matOps := lg.matOps ++ (objCore ops r c x y p).2 })

/-- `_objective_function` as the pure fallible callback handed to the
`newton_raphson` step (whatever matrix operations the step performs with
it happen inside external code and are not traced here). -/
def objOpt (ops : NumericsOps) (r c : ℕ) (x y : Mat) (p : Mat) : Option ℚ :=
  match (objCore ops r c x y p).1 with
  | .error _ => none
  | .ok v => some v

/-- The body of one Newton-Raphson iteration after the posterior:
`newton_raphson(gradient(x, y, post, ones), hessian(x, y, post, ones),
params, _objective_function)` with `post = softmax(xp)` and
`ones = np.ones((y.shape[0],))`. -/
def loopStep (ops : NumericsOps) (x y xp p : Mat) (f : Mat → Option ℚ) : Option Mat :=
  let post := ops.softmax xp
  let w : List ℚ := List.replicate y.length 1
  ops.newton_raphson (ops.gradient x y post w) (ops.hessian x y post w) p f

/-- The `for i in range(max_iter)` loop of the Newton-Raphson branch.
`fuel` is the remaining iteration budget; `i` the current index.  Per
iteration: optionally print `i`; `post = softmax(np.dot(x, params))`;
take the Newton-Raphson step; evaluate `new_value`; `break` (returning
the freshly stepped parameters) when `new_value < old_value + 1`,
otherwise continue with `old_value = new_value`. -/
def nrLoop (ops : NumericsOps) (verbose : Bool) (r c : ℕ) (x y : Mat)
    (f : Mat → Option ℚ) : ℕ → ℕ → Mat → ℚ → Log → Except PyError Mat × Log
  | 0, _, params, _, lg => (.ok params, lg)
  | fuel + 1, i, params, oldv, lg =>
      let lg1 := if verbose then lg.say (toString i) else lg
      let lg2 := lg1.op .dot
      match dotChk x params with
      | .error e => (.error e, lg2)
      | .ok xp =>
          match loopStep ops x y xp params f with
          | none => (.error .stepFailure, lg2)
          | some p2 =>
              match objEval ops r c x y p2 lg2 with
              | (.error e, lg3) => (.error e, lg3)
              | (.ok newv, lg3) =>
                  if newv < oldv + 1 then (.ok p2, lg3)
                  else nrLoop ops verbose r c x y f fuel (i + 1) p2 newv lg3

/-- The value `fit` returns: a 2-D parameter matrix on the Newton-Raphson
path, the flat vector `res.x` on the external-solver path. -/
inductive FitRet
  | mat : Mat → FitRet
  | flat : List ℚ → FitRet
deriving DecidableEq, Repr

/-- The loop-exit code of the Newton-Raphson branch, applied to the loop's
outcome: on a loop exception the exception propagates; otherwise
`self.params = params.reshape(self.params.shape)` (one write, or a numpy
error), then `if self.verbose: print "The End."`, and the (un-reshaped)
local `params` is returned. -/
def nrFinish (verbose : Bool) (r c : ℕ) (pr : Except PyError Mat × Log) :
    Except PyError FitRet × Log :=
  match pr with
  | (.error e, lg2) => (.error e, lg2)
  | (.ok pend, lg2) =>
      let lg3 := lg2.op .reshape
      match reshapeChk r c pend with
      | .error e => (.error e, lg3)
      | .ok stored =>
          let lg4 := lg3.store stored
          let lg5 := if verbose then lg4.say "The End." else lg4
          (.ok (.mat pend), lg5)

/-- The `obj` callback of the external-solver branch:
`-_objective_function(params)` on a flat parameter vector. -/
def elseObj (ops : NumericsOps) (r c : ℕ) (x y : Mat) (p : List ℚ) : Option ℚ :=
  match objOpt ops r c x y [p] with
  | none => none
  | some v => some (-v)

/-- The `grd` callback of the external-solver branch:
`-gradient(x, y, softmax(np.dot(x, params.reshape(shape))), ones)`.
(The final `.squeeze()` only drops size-1 axes and is not represented.) -/
def elseGrd (ops : NumericsOps) (r c : ℕ) (x y : Mat) (p : List ℚ) : Option Mat :=
  match reshapeChk r c [p] with
  | .error _ => none
  | .ok m =>
      match dotChk x m with
      | .error _ => none
      | .ok xp =>
          some (matNeg (ops.gradient x y (ops.softmax xp) (List.replicate y.length 1)))

/-- The `hsn` callback of the external-solver branch:
`-hessian(x, y, softmax(np.dot(x, params.reshape(shape))), ones)`. -/
def elseHsn (ops : NumericsOps) (r c : ℕ) (x y : Mat) (p : List ℚ) : Option Mat :=
  match reshapeChk r c [p] with
  | .error _ => none
  | .ok m =>
      match dotChk x m with
      | .error _ => none
      | .ok xp =>
          some (matNeg (ops.hessian x y (ops.softmax xp) (List.replicate y.length 1)))

/-- The body of `fit` after label expansion, with `y` already a matrix.
Order follows the source: copy `params`, evaluate `old_value`; on the
`'Newton-Raphson'` method print the header (unconditionally), run the
loop, write `params.reshape(self.params.shape)` into `self.params` and
print `"The End."` if verbose; on any other method flatten `params`,
delegate to `scipy.optimize.minimize` with the negated callbacks, and
write the reshaped `res.x` into `self.params`. -/
def fitWithY (ops : NumericsOps) (st : LogisticRegression) (x y : Mat)
    (method : String) (max_iter : ℕ) : Except PyError FitRet × Log :=
  let r := pRows st
  let c := pCols st
  let f := objOpt ops r c x y
  match objEval ops r c x y st.params Log.nil with
  | (.error e, lg) => (.error e, lg)
  | (.ok oldv, lg) =>
      if method = "Newton-Raphson" then
        let lg1 := lg.say "... Newton-Raphson:"
        nrFinish st.verbose r c (nrLoop ops st.verbose r c x y f max_iter 0 st.params oldv lg1)
      else
        let flat := st.params.flatten
        let lg1 := lg.op .reshape
        let res := ops.minimize (elseObj ops r c x y) flat (elseGrd ops r c x y)
            (elseHsn ops r c x y) method
        let lg2 := lg1.op .reshape
        match reshapeChk r c [res] with
        | .error e => (.error e, lg2)
        | .ok stored => (.ok (.flat res), lg2.store stored)

/-- `fit(x, y, method, max_iter)`: expand `y` when it is a Python list,
then run the body. -/
def fit (ops : NumericsOps) (st : LogisticRegression) (x : Mat) (yt : Target)
    (method : String) (max_iter : ℕ) : Except PyError FitRet × Log :=
  fitWithY ops st x (resolveTarget st.output_dim yt) method max_iter

/-- `fit` with the default iteration budget (`max_iter=20` in the source
signature). -/
def fitDefault (ops : NumericsOps) (st : LogisticRegression) (x : Mat)
    (yt : Target) (method : String) : Except PyError FitRet × Log :=
  fit ops st x yt method 20

/-- The value of `self.params` after a `fit` call: the last recorded
assignment, or the original parameters when none happened. -/
def finalParams (st : LogisticRegression) (lg : Log) : Mat :=
  lg.writes.getLastD st.params

/-- A concrete instantiation of the external numerical routines, used to
evaluate the embedding on closed inputs. -/
def opsId : NumericsOps where
  softmax := fun m => m
  loglikTail := fun _ _ => 0
  gradient := fun _ _ _ _ => []
  hessian := fun _ _ _ _ => []
  newton_raphson := fun _ _ p _ => some p
  minimize := fun _ p0 _ _ _ => p0

/-- The same routines but with a `newton_raphson` step that raises. -/
def opsFailStep : NumericsOps :=
  { opsId with newton_raphson := fun _ _ _ _ => none }

/-! The value-level model of `log_likelihood`, over the real numbers, with
matrices as functions out of `Fin`.  `softmax` lives outside the source
file, so it stays an explicit argument `sm`; numpy's elementwise `**` on
floats is real exponentiation `Real.rpow`. -/

/-- The epsilon `1e-7` added inside the logarithm of `log_likelihood`. -/
def epsLL : ℚ := 1 / 10 ^ 7

/-- `np.dot(x, p)` over the reals. -/
noncomputable def matDotR {n d k : ℕ} (x : Fin n → Fin d → ℝ)
    (p : Fin d → Fin k → ℝ) : Fin n → Fin k → ℝ :=
  fun i c => ∑ j, x i j * p j c

/-- `py_given_x(x)`: `softmax(np.dot(x, self.params))`. -/
noncomputable def py_given_x {n d k : ℕ}
    (sm : (Fin n → Fin k → ℝ) → Fin n → Fin k → ℝ)
    (x : Fin n → Fin d → ℝ) (p : Fin d → Fin k → ℝ) : Fin n → Fin k → ℝ :=
  sm (matDotR x p)

/-- One entry of `np.prod(post**y, axis=1)`: the product over classes of
`post[c] ** y[c]`. -/
noncomputable def rowLik {k : ℕ} (post y : Fin k → ℝ) : ℝ :=
  ∏ c, Real.rpow (post c) (y c)

/-- `log_likelihood(x, y)`: `np.sum(np.log(np.prod(post**y, axis=1) + 1e-7))`
with `post = py_given_x(x)`. -/
noncomputable def log_likelihood {n d k : ℕ}
    (sm : (Fin n → Fin k → ℝ) → Fin n → Fin k → ℝ)
    (x : Fin n → Fin d → ℝ) (p : Fin d → Fin k → ℝ)
    (y : Fin n → Fin k → ℝ) : ℝ :=
  ∑ i, Real.log (rowLik (py_given_x sm x p i) (y i) + (epsLL : ℝ))

/-! Helper lemmas. -/

@[simp] theorem Log.writes_op (lg : Log) (o : MatOp) : (lg.op o).writes = lg.writes := rfl

@[simp] theorem Log.prints_op (lg : Log) (o : MatOp) : (lg.op o).prints = lg.prints := rfl

@[simp] theorem Log.matOps_op (lg : Log) (o : MatOp) :
    (lg.op o).matOps = lg.matOps ++ [o] := rfl

@[simp] theorem Log.writes_say (lg : Log) (s : String) : (lg.say s).writes = lg.writes := rfl

@[simp] theorem Log.prints_say (lg : Log) (s : String) :
    (lg.say s).prints = lg.prints ++ [s] := rfl

@[simp] theorem Log.matOps_say (lg : Log) (s : String) : (lg.say s).matOps = lg.matOps := rfl

@[simp] theorem Log.writes_store (lg : Log) (m : Mat) :
    (lg.store m).writes = lg.writes ++ [m] := rfl

@[simp] theorem Log.prints_store (lg : Log) (m : Mat) : (lg.store m).prints = lg.prints := rfl

@[simp] theorem Log.matOps_store (lg : Log) (m : Mat) : (lg.store m).matOps = lg.matOps := rfl

@[simp] theorem Log.writes_say_ite (b : Bool) (lg : Log) (s : String) :
    (if b then lg.say s else lg).writes = lg.writes := by cases b <;> simp

@[simp] theorem Log.prints_say_ite (b : Bool) (lg : Log) (s : String) :
    (if b then lg.say s else lg).prints = lg.prints ++ (if b then [s] else []) := by
  cases b <;> simp

@[simp] theorem Log.matOps_say_ite (b : Bool) (lg : Log) (s : String) :
    (if b then lg.say s else lg).matOps = lg.matOps := by cases b <;> simp

theorem chunkRows_length (c : ℕ) : ∀ (r : ℕ) (xs : List ℚ), (chunkRows c r xs).length = r
  | 0, _ => rfl
  | r + 1, xs => by simp [chunkRows, chunkRows_length c r]

theorem chunkRows_row_length (c : ℕ) : ∀ (r : ℕ) (xs : List ℚ), xs.length = r * c →
    ∀ row ∈ chunkRows c r xs, row.length = c := by
  intro r
  induction r with
  | zero => intro xs _ row hmem; simp [chunkRows] at hmem
  | succ n ih =>
      intro xs hlen row hmem
      simp only [chunkRows, List.mem_cons] at hmem
      rcases hmem with h | h
      · subst h
        rw [List.length_take]
        have : c ≤ xs.length := by rw [hlen, Nat.succ_mul]; omega
        omega
      · exact ih (xs.drop c) (by rw [List.length_drop, hlen, Nat.succ_mul]; omega) row h

theorem flatten_length_of_rect (c : ℕ) (m : Mat) (h : ∀ row ∈ m, row.length = c) :
    m.flatten.length = m.length * c := by
  induction m with
  | nil => simp
  | cons r t ih =>
      have hr : r.length = c := h r (by simp)
      have ht := ih (fun row hrow => h row (by simp [hrow]))
      simp only [List.flatten_cons, List.length_append, List.length_cons, hr, ht,
        Nat.succ_mul]
      omega

theorem chunkRows_flatten (c : ℕ) (m : Mat) (h : ∀ row ∈ m, row.length = c) :
    chunkRows c m.length m.flatten = m := by
  induction m with
  | nil => rfl
  | cons r t ih =>
      have hr : r.length = c := h r (by simp)
      have ht := ih (fun row hrow => h row (by simp [hrow]))
      simp only [List.length_cons, chunkRows, List.flatten_cons]
      have h1 : List.take c (r ++ t.flatten) = r := by
        rw [← hr]; exact List.take_left r t.flatten
      have h2 : List.drop c (r ++ t.flatten) = t.flatten := by
        rw [← hr]; exact List.drop_left r t.flatten
      rw [h1, h2, ht]

theorem reshapeChk_self (c : ℕ) (m : Mat) (h : ∀ row ∈ m, row.length = c) :
    reshapeChk m.length c m = .ok m := by
  have hc := flatten_length_of_rect c m h
  simp [reshapeChk, hc, chunkRows_flatten c m h]

theorem reshapeChk_ok_dims {r c : ℕ} {m m2 : Mat} (h : reshapeChk r c m = .ok m2) :
    m2.length = r ∧ ∀ row ∈ m2, row.length = c := by
  unfold reshapeChk at h
  split at h
  · rename_i hlen
    injection h with h2
    subst h2
    exact ⟨chunkRows_length c r _, chunkRows_row_length c r _ hlen⟩
  · cases h

theorem reshapeChk_error {r c : ℕ} {m : Mat} {e : PyError}
    (h : reshapeChk r c m = .error e) : e = .dimMismatch := by
  unfold reshapeChk at h
  split at h
  · cases h
  · injection h with h2; exact h2.symm

theorem dotChk_error {a b : Mat} {e : PyError} (h : dotChk a b = .error e) :
    e = .dimMismatch := by
  unfold dotChk at h
  split at h
  · cases h
  · injection h with h2; exact h2.symm

theorem objCore_snd_of_ok {ops : NumericsOps} {r c : ℕ} {x y p : Mat} {oldv : ℚ}
    (h : (objCore ops r c x y p).1 = .ok oldv) :
    (objCore ops r c x y p).2 = [.reshape, .dot] := by
  unfold objCore at h ⊢
  cases hres : reshapeChk r c p with
  | error e => simp [hres] at h
  | ok m =>
      cases hdot : dotChk x m with
      | error e => simp [hres, hdot] at h
      | ok xp => simp [hres, hdot]

theorem objCore_not_shape (ops : NumericsOps) (r c : ℕ) (x y p : Mat) :
    (objCore ops r c x y p).1 ≠ .error .shapeMismatch := by
  unfold objCore
  cases hres : reshapeChk r c p with
  | error e =>
      have := reshapeChk_error hres
      subst this
      simp
  | ok m =>
      cases hdot : dotChk x m with
      | error e =>
          have := dotChk_error hdot
          subst this
          simp [hdot]
      | ok xp => simp [hdot]

theorem nrLoop_log (ops : NumericsOps) (vb : Bool) (r c : ℕ) (x y : Mat)
    (f : Mat → Option ℚ) : ∀ (fuel i : ℕ) (p : Mat) (oldv : ℚ) (lg : Log),
    ((nrLoop ops vb r c x y f fuel i p oldv lg).2).writes = lg.writes ∧
    (nrLoop ops vb r c x y f fuel i p oldv lg).1 ≠ .error .shapeMismatch ∧
    ((nrLoop ops vb r c x y f fuel i p oldv lg).2).prints.length ≤
      lg.prints.length + fuel ∧
    (vb = false → ((nrLoop ops vb r c x y f fuel i p oldv lg).2).prints = lg.prints) := by
  intro fuel
  induction fuel with
  | zero => intro i p oldv lg; simp [nrLoop]
  | succ n ih =>
      intro i p oldv lg
      simp only [nrLoop]
      cases hdot : dotChk x p with
      | error e =>
          have he := dotChk_error hdot
          subst he
          simp only [hdot]
          refine ⟨by simp, by simp, ?_, ?_⟩
          · cases vb <;> simp
          · intro hvb; subst hvb; simp
      | ok xp =>
          simp only [hdot]
          cases hstep : loopStep ops x y xp p f with
          | none =>
              simp only [hstep]
              refine ⟨by simp, by simp, ?_, ?_⟩
              · cases vb <;> simp
              · intro hvb; subst hvb; simp
          | some p2 =>
              simp only [hstep, objEval]
              cases hval : (objCore ops r c x y p2).1 with
              | error e =>
                  have he : e ≠ PyError.shapeMismatch := by
                    intro h; subst h; exact objCore_not_shape ops r c x y p2 hval
                  simp only [hval]
                  refine ⟨by simp, by simp [he], ?_, ?_⟩
                  · cases vb <;> simp
                  · intro hvb; subst hvb; simp
              | ok newv =>
                  simp only [hval]
                  by_cases hlt : newv < oldv + 1
                  · simp only [if_pos hlt]
                    refine ⟨by simp, by simp, ?_, ?_⟩
                    · cases vb <;> simp
                    · intro hvb; subst hvb; simp
                  · simp only [if_neg hlt]
                    obtain ⟨ihw, ihv, ihp, ihf⟩ := ih (i + 1) p2 newv
                      { Log.op (if vb then lg.say (toString i) else lg) MatOp.dot with
                        matOps := (Log.op (if vb then lg.say (toString i) else lg)
                          MatOp.dot).matOps ++ (objCore ops r c x y p2).2 }
                    refine ⟨by rw [ihw]; simp, ihv, ?_, ?_⟩
                    · refine le_trans ihp ?_
                      cases vb <;> simp <;> omega
                    · intro hvb
                      rw [ihf hvb]
                      subst hvb
                      simp

theorem nrLoop_indep (ops : NumericsOps) (r c : ℕ) (x y : Mat) (f : Mat → Option ℚ) :
    ∀ (fuel i : ℕ) (p : Mat) (oldv : ℚ) (va vb : Bool) (lgA lgB : Log),
    lgA.writes = lgB.writes → lgA.matOps = lgB.matOps →
    (nrLoop ops va r c x y f fuel i p oldv lgA).1 =
      (nrLoop ops vb r c x y f fuel i p oldv lgB).1 ∧
    (nrLoop ops va r c x y f fuel i p oldv lgA).2.writes =
      (nrLoop ops vb r c x y f fuel i p oldv lgB).2.writes ∧
    (nrLoop ops va r c x y f fuel i p oldv lgA).2.matOps =
      (nrLoop ops vb r c x y f fuel i p oldv lgB).2.matOps := by
  intro fuel
  induction fuel with
  | zero => intro i p oldv va vb lgA lgB hw hm; simp [nrLoop, hw, hm]
  | succ n ih =>
      intro i p oldv va vb lgA lgB hw hm
      simp only [nrLoop]
      cases hdot : dotChk x p with
      | error e => simp [hdot, hw, hm]
      | ok xp =>
          simp only [hdot]
          cases hstep : loopStep ops x y xp p f with
          | none => simp [hstep, hw, hm]
          | some p2 =>
              simp only [hstep, objEval]
              cases hval : (objCore ops r c x y p2).1 with
              | error e => simp [hval, hw, hm]
              | ok newv =>
                  simp only [hval]
                  by_cases hlt : newv < oldv + 1
                  · simp only [if_pos hlt]
                    simp [hw, hm]
                  · simp only [if_neg hlt]
                    refine ih (i + 1) p2 newv va vb _ _ ?_ ?_ <;> simp [hw, hm]

theorem nrLoop_pair_writes {ops : NumericsOps} {vb : Bool} {r c : ℕ} {x y : Mat}
    {f : Mat → Option ℚ} {fuel i : ℕ} {p : Mat} {oldv : ℚ} {lg : Log}
    {res : Except PyError Mat} {lg2 : Log}
    (h : nrLoop ops vb r c x y f fuel i p oldv lg = (res, lg2)) :
    lg2.writes = lg.writes := by
  have h2 := (nrLoop_log ops vb r c x y f fuel i p oldv lg).1
  rw [h] at h2
  exact h2

theorem nrLoop_pair_not_shape {ops : NumericsOps} {vb : Bool} {r c : ℕ} {x y : Mat}
    {f : Mat → Option ℚ} {fuel i : ℕ} {p : Mat} {oldv : ℚ} {lg : Log}
    {e : PyError} {lg2 : Log}
    (h : nrLoop ops vb r c x y f fuel i p oldv lg = (.error e, lg2)) :
    e ≠ .shapeMismatch := by
  have h2 := (nrLoop_log ops vb r c x y f fuel i p oldv lg).2.1
  rw [h] at h2
  intro hc
  subst hc
  exact h2 rfl

theorem nrLoop_pair_prints_false {ops : NumericsOps} {vb : Bool} {r c : ℕ} {x y : Mat}
    {f : Mat → Option ℚ} {fuel i : ℕ} {p : Mat} {oldv : ℚ} {lg : Log}
    {res : Except PyError Mat} {lg2 : Log}
    (h : nrLoop ops vb r c x y f fuel i p oldv lg = (res, lg2)) (hvb : vb = false) :
    lg2.prints = lg.prints := by
  have h2 := (nrLoop_log ops vb r c x y f fuel i p oldv lg).2.2.2 hvb
  rw [h] at h2
  exact h2

theorem nrLoop_snd_writes (ops : NumericsOps) (vb : Bool) (r c : ℕ) (x y : Mat)
    (f : Mat → Option ℚ) (fuel i : ℕ) (p : Mat) (oldv : ℚ) (lg : Log) :
    (nrLoop ops vb r c x y f fuel i p oldv lg).2.writes = lg.writes :=
  (nrLoop_log ops vb r c x y f fuel i p oldv lg).1

theorem nrLoop_fst_not_shape (ops : NumericsOps) (vb : Bool) (r c : ℕ) (x y : Mat)
    (f : Mat → Option ℚ) (fuel i : ℕ) (p : Mat) (oldv : ℚ) (lg : Log) :
    (nrLoop ops vb r c x y f fuel i p oldv lg).1 ≠ .error .shapeMismatch :=
  (nrLoop_log ops vb r c x y f fuel i p oldv lg).2.1

theorem nrLoop_snd_prints_false (ops : NumericsOps) (r c : ℕ) (x y : Mat)
    (f : Mat → Option ℚ) (fuel i : ℕ) (p : Mat) (oldv : ℚ) (lg : Log) :
    (nrLoop ops false r c x y f fuel i p oldv lg).2.prints = lg.prints :=
  (nrLoop_log ops false r c x y f fuel i p oldv lg).2.2.2 rfl

theorem nrLoop_fst_indep (ops : NumericsOps) (r c : ℕ) (x y : Mat)
    (f : Mat → Option ℚ) (fuel i : ℕ) (p : Mat) (oldv : ℚ) (va vb : Bool) (lg : Log) :
    (nrLoop ops va r c x y f fuel i p oldv lg).1 =
      (nrLoop ops vb r c x y f fuel i p oldv lg).1 :=
  (nrLoop_indep ops r c x y f fuel i p oldv va vb lg lg rfl rfl).1

theorem nrFinish_not_shape {vb : Bool} {r c : ℕ} {pr : Except PyError Mat × Log}
    (h : pr.1 ≠ .error .shapeMismatch) :
    (nrFinish vb r c pr).1 ≠ .error .shapeMismatch := by
  rcases pr with ⟨res, lg2⟩
  cases res with
  | error e => simpa [nrFinish] using h
  | ok pend =>
      cases hre : reshapeChk r c pend with
      | error e =>
          have := reshapeChk_error hre
          subst this
          simp [nrFinish, hre]
      | ok stored => cases vb <;> simp [nrFinish, hre]

theorem nrFinish_error_cases {vb : Bool} {r c : ℕ} {pr : Except PyError Mat × Log}
    {e : PyError} {lg : Log} (h : nrFinish vb r c pr = (.error e, lg)) :
    lg.writes = pr.2.writes ∧ lg.prints = pr.2.prints := by
  rcases pr with ⟨res, lg2⟩
  cases res with
  | error e2 =>
      simp only [nrFinish] at h
      injection h with h1 h2
      subst h2
      exact ⟨rfl, rfl⟩
  | ok pend =>
      cases hre : reshapeChk r c pend with
      | error e2 =>
          simp only [nrFinish, hre] at h
          injection h with h1 h2
          subst h2
          simp
      | ok stored =>
          cases vb <;> simp [nrFinish, hre] at h

theorem nrFinish_ok_cases {vb : Bool} {r c : ℕ} {pr : Except PyError Mat × Log}
    {ret : FitRet} {lg : Log} (h : nrFinish vb r c pr = (.ok ret, lg)) :
    ∃ pend stored, pr.1 = .ok pend ∧ ret = .mat pend ∧
      reshapeChk r c pend = .ok stored ∧ lg.writes = pr.2.writes ++ [stored] ∧
      lg.prints = pr.2.prints ++ (if vb then ["The End."] else []) := by
  rcases pr with ⟨res, lg2⟩
  cases res with
  | error e => simp [nrFinish] at h
  | ok pend =>
      cases hre : reshapeChk r c pend with
      | error e => simp [nrFinish, hre] at h
      | ok stored =>
          cases vb with
          | false =>
              simp only [nrFinish, hre, Bool.false_eq_true, if_false] at h
              injection h with h1 h2
              injection h1 with h1
              subst h1
              subst h2
              exact ⟨pend, stored, rfl, rfl, hre, by simp, by simp⟩
          | true =>
              simp only [nrFinish, hre, if_true] at h
              injection h with h1 h2
              injection h1 with h1
              subst h1
              subst h2
              exact ⟨pend, stored, rfl, rfl, hre, by simp, by simp⟩

theorem nrFinish_prints_of_false {r c : ℕ} (pr : Except PyError Mat × Log) :
    (nrFinish false r c pr).2.prints = pr.2.prints := by
  rcases pr with ⟨res, lg2⟩
  cases res with
  | error e => simp [nrFinish]
  | ok pend =>
      cases hre : reshapeChk r c pend with
      | error e => simp [nrFinish, hre]
      | ok stored => simp [nrFinish, hre]

theorem nrFinish_indep {vb1 vb2 : Bool} {r c : ℕ} {prA prB : Except PyError Mat × Log}
    (h1 : prA.1 = prB.1) (h2 : prA.2.writes = prB.2.writes) :
    (nrFinish vb1 r c prA).1 = (nrFinish vb2 r c prB).1 ∧
    (nrFinish vb1 r c prA).2.writes = (nrFinish vb2 r c prB).2.writes := by
  rcases prA with ⟨resA, lgA⟩
  rcases prB with ⟨resB, lgB⟩
  simp only [Prod.fst] at h1
  simp only [Prod.snd] at h2
  subst h1
  cases resA with
  | error e => simp [nrFinish, h2]
  | ok pend =>
      cases hre : reshapeChk r c pend with
      | error e => simp [nrFinish, hre, h2]
      | ok stored => cases vb1 <;> cases vb2 <;> simp [nrFinish, hre, h2]

theorem fitWithY_not_shape (ops : NumericsOps) (st : LogisticRegression) (x y : Mat)
    (method : String) (mi : ℕ) :
    (fitWithY ops st x y method mi).1 ≠ .error .shapeMismatch := by
  unfold fitWithY
  simp only [objEval]
  cases hval : (objCore ops (pRows st) (pCols st) x y st.params).1 with
  | error e =>
      have he : e ≠ .shapeMismatch := by
        intro h
        subst h
        exact objCore_not_shape ops (pRows st) (pCols st) x y st.params hval
      simp [hval, he]
  | ok oldv =>
      simp only [hval]
      by_cases hm : method = "Newton-Raphson"
      · simp only [if_pos hm]
        apply nrFinish_not_shape
        apply nrLoop_fst_not_shape
      · simp only [if_neg hm]
        split
        · rename_i e hre
          have := reshapeChk_error hre
          subst this
          simp
        · rename_i stored hre
          simp

theorem fit_not_shape (ops : NumericsOps) (st : LogisticRegression) (x : Mat)
    (yt : Target) (method : String) (mi : ℕ) :
    (fit ops st x yt method mi).1 ≠ .error .shapeMismatch :=
  fitWithY_not_shape ops st x (resolveTarget st.output_dim yt) method mi

/-- C10: the one-hot expansion at the head of `fit` is triggered only when
`y` is a Python list.  A numpy array `m` — in particular an array of
integer class labels — is fed to the objective/gradient/Hessian routines
as-is (`fit` on `.arr m` is the body `fitWithY` at `m` itself), whereas a
list `ls` is first expanded by identity-matrix row lookup. -/
theorem C10_array_never_expanded (ops : NumericsOps) (st : LogisticRegression)
    (x m : Mat) (ls : List ℕ) (method : String) (mi : ℕ) :
    fit ops st x (.arr m) method mi = fitWithY ops st x m method mi ∧
    resolveTarget st.output_dim (.arr m) = m ∧
    fit ops st x (.labels ls) method mi =
      fitWithY ops st x (expandLabels st.output_dim ls) method mi :=
  ⟨rfl, rfl, rfl⟩

/-- C6: on a Classifier with `output_dim = 2`, `fit` called with the
integer label list `[0, 1]` produces a result identical to `fit` called
with the explicit one-hot matrix `[[1,0],[0,1]]`: the labels are expanded
to one-hot rows by identity-matrix row lookup before anything else runs. -/
theorem C6_label_list_equals_one_hot (ops : NumericsOps) (st : LogisticRegression)
    (x : Mat) (method : String) (mi : ℕ) (h2 : st.output_dim = 2) :
    fit ops st x (.labels [0, 1]) method mi =
      fit ops st x (.arr [[1, 0], [0, 1]]) method mi := by
  unfold fit
  have hexp : resolveTarget st.output_dim (.labels [0, 1]) = [[1, 0], [0, 1]] := by
    rw [h2]
    decide
  rw [hexp]
  rfl

theorem C6_witness :
    fit opsId ⟨2, 2, false, [[1, 0], [0, 1]]⟩ [[1, 2], [3, 4]] (.labels [0, 1])
        "Newton-Raphson" 1 =
      fit opsId ⟨2, 2, false, [[1, 0], [0, 1]]⟩ [[1, 2], [3, 4]]
        (.arr [[1, 0], [0, 1]]) "Newton-Raphson" 1 :=
  C6_label_list_equals_one_hot opsId ⟨2, 2, false, [[1, 0], [0, 1]]⟩ [[1, 2], [3, 4]]
    "Newton-Raphson" 1 rfl

/-- C5: `log_likelihood(x, y)` is exactly the sum over samples `i` of
`log(prod over classes of posterior[i,c] ** y[i,c] + 1e-7)` with
`posterior = softmax(np.dot(x, params))` (`sm` standing for the imported
`softmax`), the epsilon being added inside the logarithm before it is
taken; and for any posterior row with non-negative entries — including
entries equal to 0 for an observed class — the argument of the logarithm
is strictly positive, so the logarithm is applied to a positive number. -/
theorem C5_log_likelihood_formula {n d k : ℕ}
    (sm : (Fin n → Fin k → ℝ) → Fin n → Fin k → ℝ)
    (x : Fin n → Fin d → ℝ) (p : Fin d → Fin k → ℝ) (y : Fin n → Fin k → ℝ)
    (post yv : Fin k → ℝ) :
    log_likelihood sm x p y =
      ∑ i, Real.log ((∏ c2, Real.rpow (sm (matDotR x p) i c2) (y i c2)) + (epsLL : ℝ)) ∧
    (epsLL : ℝ) = 1e-7 ∧
    ((∀ c2, 0 ≤ post c2) → 0 < (∏ c2, Real.rpow (post c2) (yv c2)) + (epsLL : ℝ)) := by
  refine ⟨rfl, by norm_num [epsLL], ?_⟩
  intro hpost
  have h1 : 0 ≤ ∏ c2, Real.rpow (post c2) (yv c2) :=
    Finset.prod_nonneg (fun c2 _ => Real.rpow_nonneg (hpost c2) _)
  have h2 : (0 : ℝ) < (epsLL : ℝ) := by norm_num [epsLL]
  linarith

theorem C5_witness :
    (∀ c2 : Fin 1, (0 : ℝ) ≤ (fun _ : Fin 1 => (0 : ℝ)) c2) ∧
    0 < (∏ c2 : Fin 1, Real.rpow ((fun _ : Fin 1 => (0 : ℝ)) c2)
        ((fun _ : Fin 1 => (1 : ℝ)) c2)) + (epsLL : ℝ) :=
  ⟨fun _ => le_refl 0,
    (@C5_log_likelihood_formula 1 1 1 (fun z => z) (fun _ _ => 0) (fun _ _ => 0)
        (fun _ _ => 0) (fun _ => 0) (fun _ => 1)).2.2 (fun _ => le_refl 0)⟩

/-- C3: `fit` with method `'Newton-Raphson'` and `max_iter = 0` returns the
initial (unfitted) parameter matrix unchanged, and the Classifier's stored
parameter matrix is equal in value to what it was before the call (the
loop body never runs; the exit write re-stores the same matrix). -/
theorem C3_max_iter_zero_returns_params (ops : NumericsOps) (st : LogisticRegression)
    (x : Mat) (yt : Target)
    (hrect : ∀ row ∈ st.params, row.length = pCols st)
    (hdot : x.all (fun row => row.length = st.params.length) = true) :
    (fit ops st x yt "Newton-Raphson" 0).1 = .ok (.mat st.params) ∧
    (fit ops st x yt "Newton-Raphson" 0).2.writes = [st.params] ∧
    finalParams st (fit ops st x yt "Newton-Raphson" 0).2 = st.params := by
  have hres : reshapeChk (pRows st) (pCols st) st.params = .ok st.params :=
    reshapeChk_self (pCols st) st.params hrect
  have hdc : dotChk x st.params = .ok (matMul x st.params) := by
    unfold dotChk
    rw [hdot]
    simp
  refine ⟨?_, ?_, ?_⟩ <;>
  · simp only [fit, fitWithY, finalParams, objEval, objCore, hres, hdc, nrLoop]
    cases hv : st.verbose <;> simp [hv, Log.nil, nrFinish, hres]

theorem ite_nr {α : Type} (t e : α) :
    (if ("Newton-Raphson" : String) = "Newton-Raphson" then t else e) = t := if_pos rfl

/-- C2 counterexample: a `fit` call with verbose=false and method
'Newton-Raphson' still emits progress text — the header
`"... Newton-Raphson:"` is printed unconditionally by the source. -/
theorem C2_counterexample :
    (fit opsId ⟨1, 1, false, [[1]]⟩ [[1]] (.arr [[1]]) "Newton-Raphson" 0).2.prints =
      ["... Newton-Raphson:"] ∧
    (fit opsId ⟨1, 1, false, [[1]]⟩ [[1]] (.arr [[1]]) "Newton-Raphson" 0).2.prints ≠
      ([] : List String) :=
  ⟨by decide, by decide⟩

/-- C2 (amended): with verbose=false and method 'Newton-Raphson', the only
progress text emitted is the unconditional header `"... Newton-Raphson:"`
— no iteration indices and no `"The End."` — and the verbose flag is
purely observational: it has no effect on the value `fit` returns or on
the parameters written back into the Classifier. -/
theorem C2_verbose_false_only_header (ops : NumericsOps) (st : LogisticRegression)
    (x : Mat) (yt : Target) (mi : ℕ) (oldv : ℚ) (hv : st.verbose = false)
    (hok : (objCore ops (pRows st) (pCols st) x (resolveTarget st.output_dim yt)
      st.params).1 = .ok oldv) :
    (fit ops st x yt "Newton-Raphson" mi).2.prints = ["... Newton-Raphson:"] ∧
    ∀ (b1 b2 : Bool) (method : String) (mi2 : ℕ),
      (fit ops ⟨st.input_dim, st.output_dim, b1, st.params⟩ x yt method mi2).1 =
        (fit ops ⟨st.input_dim, st.output_dim, b2, st.params⟩ x yt method mi2).1 ∧
      (fit ops ⟨st.input_dim, st.output_dim, b1, st.params⟩ x yt method mi2).2.writes =
        (fit ops ⟨st.input_dim, st.output_dim, b2, st.params⟩ x yt method mi2).2.writes := by
  constructor
  · simp only [fit, fitWithY, objEval, hok, ite_nr, if_true]
    rw [hv, nrFinish_prints_of_false, nrLoop_snd_prints_false]
    simp [Log.nil]
  · intro b1 b2 method mi2
    simp only [fit, fitWithY, objEval, pRows, pCols]
    cases hval : (objCore ops st.params.length (colsOf st.params) x
        (resolveTarget st.output_dim yt) st.params).1 with
    | error e =>
        simp only [hval]
        exact ⟨by trivial, by trivial⟩
    | ok oldv2 =>
        simp only [hval]
        by_cases hm : method = "Newton-Raphson"
        · subst hm
          simp only [ite_nr, if_true]
          refine nrFinish_indep ?_ ?_
          · apply nrLoop_fst_indep
          · rw [nrLoop_snd_writes, nrLoop_snd_writes]
        · simp only [if_neg hm]
          exact ⟨by trivial, by trivial⟩

theorem C2_witness :
    ((objCore opsId (pRows ⟨1, 1, false, [[1]]⟩) (pCols ⟨1, 1, false, [[1]]⟩) [[1]]
      (resolveTarget 1 (.arr [[1]])) [[1]]).1 = .ok 0) ∧
    (fit opsId ⟨1, 1, false, [[1]]⟩ [[1]] (.arr [[1]]) "Newton-Raphson" 3).2.prints =
      ["... Newton-Raphson:"] :=
  ⟨by decide,
    (C2_verbose_false_only_header opsId ⟨1, 1, false, [[1]]⟩ [[1]] (.arr [[1]]) 3 0
      rfl (by decide)).1⟩

/-- C4: during a 'Newton-Raphson' `fit`, `self.params` is written only on
loop exit, never during an iteration: whenever the call ends in an
exception (for instance the `newton_raphson` step raising mid-loop), no
write to `self.params` has happened and the Classifier still holds its
previous parameters; on a successful call there is exactly one write. -/
theorem C4_store_only_on_loop_exit (ops : NumericsOps) (st : LogisticRegression)
    (x : Mat) (yt : Target) (mi : ℕ) :
    (∀ e lg, fit ops st x yt "Newton-Raphson" mi = (.error e, lg) →
      lg.writes = [] ∧ finalParams st lg = st.params) ∧
    (∀ ret lg, fit ops st x yt "Newton-Raphson" mi = (.ok ret, lg) →
      ∃ stored, lg.writes = [stored]) := by
  simp only [fit, fitWithY, objEval]
  cases hval : (objCore ops (pRows st) (pCols st) x
      (resolveTarget st.output_dim yt) st.params).1 with
  | error e0 =>
      simp only [hval]
      constructor
      · intro e lg heq
        injection heq with h1 h2
        subst h2
        simp [finalParams, Log.nil]
      · intro ret lg heq
        injection heq with h1 h2
        cases h1
  | ok oldv =>
      simp only [hval, ite_nr, if_true]
      constructor
      · intro e lg heq
        obtain ⟨hw, hp⟩ := nrFinish_error_cases heq
        rw [nrLoop_snd_writes] at hw
        have hw2 : lg.writes = [] := by rw [hw]; simp [Log.nil]
        refine ⟨hw2, ?_⟩
        simp [finalParams, hw2]
      · intro ret lg heq
        obtain ⟨pend, stored, hpr, hret, hre, hw, hp⟩ := nrFinish_ok_cases heq
        rw [nrLoop_snd_writes] at hw
        refine ⟨stored, ?_⟩
        rw [hw]
        simp [Log.nil]

theorem C4_witness :
    fit opsFailStep ⟨1, 1, false, [[1]]⟩ [[1]] (.arr [[1]]) "Newton-Raphson" 1 =
      (.error .stepFailure, ⟨[], ["... Newton-Raphson:"], [.reshape, .dot, .dot]⟩) ∧
    (⟨[], ["... Newton-Raphson:"], [.reshape, .dot, .dot]⟩ : Log).writes = [] ∧
    finalParams ⟨1, 1, false, [[1]]⟩
      ⟨[], ["... Newton-Raphson:"], [.reshape, .dot, .dot]⟩ = [[1]] := by
  have h := (C4_store_only_on_loop_exit opsFailStep ⟨1, 1, false, [[1]]⟩ [[1]]
    (.arr [[1]]) 1).1 .stepFailure
    ⟨[], ["... Newton-Raphson:"], [.reshape, .dot, .dot]⟩ (by decide)
  exact ⟨by decide, h.1, h.2⟩

theorem C3_witness :
    (∀ row ∈ ([[1]] : Mat), row.length = pCols ⟨1, 1, true, [[1]]⟩) ∧
    ([[1], [2]] : Mat).all (fun row => row.length = ([[1]] : Mat).length) = true ∧
    (fit opsId ⟨1, 1, true, [[1]]⟩ [[1], [2]] (.arr [[1], [0]]) "Newton-Raphson" 0).1 =
      .ok (.mat [[1]]) ∧
    finalParams ⟨1, 1, true, [[1]]⟩
      (fit opsId ⟨1, 1, true, [[1]]⟩ [[1], [2]] (.arr [[1], [0]]) "Newton-Raphson" 0).2 =
      [[1]] := by
  have h := C3_max_iter_zero_returns_params opsId ⟨1, 1, true, [[1]]⟩ [[1], [2]]
    (.arr [[1], [0]]) (by decide) (by decide)
  exact ⟨by decide, by decide, h.1, h.2.2⟩

/-- C7 counterexample: a `fit` call whose `x` rows have 2 entries against a
1×1 parameter matrix raises no dedicated pre-flight ShapeMismatchError:
the error that surfaces is the numpy dimension error, and matrix
operations had already been attempted when it was raised (the operation
trace is non-empty), contradicting detection before any matrix operation. -/
theorem C7_counterexample :
    (fit opsId ⟨1, 1, false, [[1]]⟩ [[1, 1]] (.arr [[1]]) "Newton-Raphson" 5).1 =
      .error .dimMismatch ∧
    (fit opsId ⟨1, 1, false, [[1]]⟩ [[1, 1]] (.arr [[1]]) "Newton-Raphson" 5).1 ≠
      .error .shapeMismatch ∧
    (fit opsId ⟨1, 1, false, [[1]]⟩ [[1, 1]] (.arr [[1]]) "Newton-Raphson" 5).2.matOps ≠ [] :=
  ⟨by decide, by decide, by decide⟩

/-- C7 (amended): `fit` performs no pre-flight shape validation.  When the
rows of `x` do not match the parameter matrix's leading dimension, the
failure is the dimension error raised from inside the first matrix
operations (the reshape and dot of the initial objective evaluation,
which make up the whole operation trace), and no input ever produces a
dedicated ShapeMismatchError on either optimization path. -/
theorem C7_no_preflight_shape_check (ops : NumericsOps) (st : LogisticRegression)
    (x : Mat) (yt : Target) (mi : ℕ) (pr2 : Mat)
    (hres : reshapeChk (pRows st) (pCols st) st.params = .ok pr2)
    (hx : x.all (fun row => row.length = pr2.length) = false) :
    fit ops st x yt "Newton-Raphson" mi =
      (.error .dimMismatch, ⟨[], [], [.reshape, .dot]⟩) ∧
    ∀ (ops2 : NumericsOps) (st2 : LogisticRegression) (x2 : Mat) (yt2 : Target)
      (method2 : String) (mi2 : ℕ),
      (fit ops2 st2 x2 yt2 method2 mi2).1 ≠ .error .shapeMismatch := by
  constructor
  · have hdc : dotChk x pr2 = .error .dimMismatch := by
      unfold dotChk
      rw [hx]
      simp
    simp only [fit, fitWithY, objEval, objCore, hres, hdc]
    simp [Log.nil]
  · intro ops2 st2 x2 yt2 method2 mi2
    exact fit_not_shape ops2 st2 x2 yt2 method2 mi2

theorem C7_witness :
    reshapeChk (pRows ⟨1, 1, false, ([[1]] : Mat)⟩) (pCols ⟨1, 1, false, ([[1]] : Mat)⟩)
      [[1]] = .ok [[1]] ∧
    ([[0, 0]] : Mat).all (fun row => row.length = ([[1]] : Mat).length) = false ∧
    fit opsId ⟨1, 1, false, [[1]]⟩ [[0, 0]] (.arr [[1]]) "Newton-Raphson" 2 =
      (.error .dimMismatch, ⟨[], [], [.reshape, .dot]⟩) := by
  have h := C7_no_preflight_shape_check opsId ⟨1, 1, false, [[1]]⟩ [[0, 0]] (.arr [[1]]) 2
    [[1]] (by decide) (by decide)
  exact ⟨by decide, by decide, h.1⟩

/-- C8: with any method string other than 'Newton-Raphson' — unrecognized
strings included — `fit` delegates to the external solver `minimize` with
the negated objective/gradient/Hessian callbacks and never silently
no-ops: its return value is exactly the solver's `res.x` and the
written-back parameters are that vector's reshape; and on any in-range
flat vector the callbacks evaluate to the negations of the objective,
gradient and Hessian respectively. -/
theorem C8_external_solver_delegation (ops : NumericsOps) (st : LogisticRegression)
    (x : Mat) (yt : Target) (method : String) (mi : ℕ) (oldv : ℚ)
    (hm : method ≠ "Newton-Raphson")
    (hok : (objCore ops (pRows st) (pCols st) x (resolveTarget st.output_dim yt)
      st.params).1 = .ok oldv) :
    (∀ stored,
      reshapeChk (pRows st) (pCols st)
          [ops.minimize
            (elseObj ops (pRows st) (pCols st) x (resolveTarget st.output_dim yt))
            st.params.flatten
            (elseGrd ops (pRows st) (pCols st) x (resolveTarget st.output_dim yt))
            (elseHsn ops (pRows st) (pCols st) x (resolveTarget st.output_dim yt))
            method] = .ok stored →
      fit ops st x yt method mi =
        (.ok (.flat (ops.minimize
            (elseObj ops (pRows st) (pCols st) x (resolveTarget st.output_dim yt))
            st.params.flatten
            (elseGrd ops (pRows st) (pCols st) x (resolveTarget st.output_dim yt))
            (elseHsn ops (pRows st) (pCols st) x (resolveTarget st.output_dim yt))
            method)),
          ⟨[stored], [], [.reshape, .dot, .reshape, .reshape]⟩)) ∧
    (∀ (y : Mat) (p : List ℚ) (m2 xp : Mat),
      reshapeChk (pRows st) (pCols st) [p] = .ok m2 → dotChk x m2 = .ok xp →
      elseObj ops (pRows st) (pCols st) x y p =
        some (-(ops.loglikTail (ops.softmax xp) y)) ∧
      elseGrd ops (pRows st) (pCols st) x y p =
        some (matNeg (ops.gradient x y (ops.softmax xp) (List.replicate y.length 1))) ∧
      elseHsn ops (pRows st) (pCols st) x y p =
        some (matNeg (ops.hessian x y (ops.softmax xp) (List.replicate y.length 1)))) := by
  constructor
  · intro stored hstored
    simp only [fit, fitWithY, objEval, hok, if_neg hm, hstored]
    simp [Log.nil, Log.op, Log.store, objCore_snd_of_ok hok]
  · intro y p m2 xp h1 h2
    refine ⟨?_, ?_, ?_⟩ <;> simp [elseObj, elseGrd, elseHsn, objOpt, objCore, h1, h2]

theorem C8_witness :
    ("BFGS" : String) ≠ "Newton-Raphson" ∧
    (objCore opsId (pRows ⟨1, 1, false, ([[1]] : Mat)⟩)
      (pCols ⟨1, 1, false, ([[1]] : Mat)⟩) [[1]]
      (resolveTarget 1 (.arr [[1]])) [[1]]).1 = .ok 0 ∧
    fit opsId ⟨1, 1, false, [[1]]⟩ [[1]] (.arr [[1]]) "BFGS" 7 =
      (.ok (.flat [1]), ⟨[[[1]]], [], [.reshape, .dot, .reshape, .reshape]⟩) := by
  have h := (C8_external_solver_delegation opsId ⟨1, 1, false, [[1]]⟩ [[1]] (.arr [[1]])
    "BFGS" 7 0 (by decide) (by decide)).1 [[1]] (by decide)
  exact ⟨by decide, by decide, h⟩

/-- C9: the stored parameter matrix is input_dim × output_dim at
construction, and every successful `fit` call — on the Newton-Raphson
path and on the external-solver path alike — writes back a matrix of
exactly the previous stored shape (the reshape to `self.params.shape`
guarantees it), so the shape never changes across fit calls. -/
theorem C9_param_shape_invariant (d k : ℕ) (vb : Bool) (rand : ℕ → ℕ → ℚ)
    (invSqrt : ℚ) (ops : NumericsOps) (st : LogisticRegression) (x : Mat)
    (yt : Target) (method : String) (mi : ℕ) :
    ((initLR d k vb rand invSqrt).params.length = d ∧
      ∀ row ∈ (initLR d k vb rand invSqrt).params, row.length = k) ∧
    (∀ ret lg, fit ops st x yt method mi = (.ok ret, lg) →
      ∃ stored, lg.writes = [stored] ∧ finalParams st lg = stored ∧
        stored.length = pRows st ∧ ∀ row ∈ stored, row.length = pCols st) := by
  constructor
  · constructor
    · simp [initLR]
    · intro row hrow
      simp only [initLR, List.mem_map, List.mem_range] at hrow
      obtain ⟨i, hi, hrow⟩ := hrow
      rw [← hrow]
      simp
  · simp only [fit, fitWithY, objEval]
    cases hval : (objCore ops (pRows st) (pCols st) x
        (resolveTarget st.output_dim yt) st.params).1 with
    | error e0 =>
        simp only [hval]
        intro ret lg heq
        injection heq with h1 h2
        cases h1
    | ok oldv =>
        simp only [hval]
        by_cases hm : method = "Newton-Raphson"
        · subst hm
          simp only [ite_nr, if_true]
          intro ret lg heq
          obtain ⟨pend, stored, hpr, hret, hre, hw, hp⟩ := nrFinish_ok_cases heq
          rw [nrLoop_snd_writes] at hw
          obtain ⟨hlen, hrows⟩ := reshapeChk_ok_dims hre
          have hw2 : lg.writes = [stored] := by rw [hw]; simp [Log.nil]
          exact ⟨stored, hw2, by simp [finalParams, hw2], hlen, hrows⟩
        · simp only [if_neg hm]
          intro ret lg heq
          cases hre : reshapeChk (pRows st) (pCols st)
              [ops.minimize
                (elseObj ops (pRows st) (pCols st) x (resolveTarget st.output_dim yt))
                st.params.flatten
                (elseGrd ops (pRows st) (pCols st) x (resolveTarget st.output_dim yt))
                (elseHsn ops (pRows st) (pCols st) x (resolveTarget st.output_dim yt))
                method] with
          | error e =>
              simp only [hre] at heq
              injection heq with h1 h2
              cases h1
          | ok stored =>
              simp only [hre] at heq
              injection heq with h1 h2
              subst h2
              obtain ⟨hlen, hrows⟩ := reshapeChk_ok_dims hre
              refine ⟨stored, ?_, ?_, hlen, hrows⟩ <;> simp [finalParams, Log.nil]

theorem C9_witness :
    ((initLR 2 3 true (fun _ _ => 5) 1).params.length = 2 ∧
      ∀ row ∈ (initLR 2 3 true (fun _ _ => 5) 1).params, row.length = 3) ∧
    ∃ stored,
      (⟨[[[1]]], ["... Newton-Raphson:"], [.reshape, .dot, .reshape]⟩ : Log).writes =
        [stored] ∧
      finalParams ⟨1, 1, false, [[1]]⟩
        ⟨[[[1]]], ["... Newton-Raphson:"], [.reshape, .dot, .reshape]⟩ = stored ∧
      stored.length = pRows ⟨1, 1, false, ([[1]] : Mat)⟩ ∧
      ∀ row ∈ stored, row.length = pCols ⟨1, 1, false, ([[1]] : Mat)⟩ := by
  refine ⟨(C9_param_shape_invariant 2 3 true (fun _ _ => 5) 1 opsId ⟨1, 1, false, [[1]]⟩
    [[1]] (.arr [[1]]) "Newton-Raphson" 0).1, ?_⟩
  exact (C9_param_shape_invariant 2 3 true (fun _ _ => 5) 1 opsId ⟨1, 1, false, [[1]]⟩
    [[1]] (.arr [[1]]) "Newton-Raphson" 0).2 (.mat [[1]])
    ⟨[[[1]]], ["... Newton-Raphson:"], [.reshape, .dot, .reshape]⟩ (by decide)

/-- C1: the Newton-Raphson loop stops exactly when the objective value at
the freshly stepped parameters improves on the previous objective value
by less than the absolute threshold 1.0 (`new_value < old_value + 1`,
which includes steps that regress the objective — the just-stepped
parameters are returned with no revert-to-best), or when the iteration
budget is exhausted (at which point the current parameters are returned);
with verbose output on, at most `max_iter` iteration indices are ever
printed; the budget defaults to 20. -/
theorem C1_nr_stopping_rule (ops : NumericsOps) (vb : Bool) (r c : ℕ) (x y : Mat)
    (f : Mat → Option ℚ) (fuel i : ℕ) (p p2 xp : Mat) (oldv newv : ℚ) (lg lg3 : Log)
    (st : LogisticRegression) (yt : Target) (method : String) :
    (nrLoop ops vb r c x y f 0 i p oldv lg = (.ok p, lg)) ∧
    (dotChk x p = .ok xp → loopStep ops x y xp p f = some p2 →
      objEval ops r c x y p2 ((if vb then lg.say (toString i) else lg).op .dot) =
        (.ok newv, lg3) →
      newv < oldv + 1 →
      nrLoop ops vb r c x y f (fuel + 1) i p oldv lg = (.ok p2, lg3)) ∧
    (dotChk x p = .ok xp → loopStep ops x y xp p f = some p2 →
      objEval ops r c x y p2 ((if vb then lg.say (toString i) else lg).op .dot) =
        (.ok newv, lg3) →
      ¬(newv < oldv + 1) →
      nrLoop ops vb r c x y f (fuel + 1) i p oldv lg =
        nrLoop ops vb r c x y f fuel (i + 1) p2 newv lg3) ∧
    ((nrLoop ops vb r c x y f fuel i p oldv lg).2.prints.length ≤
      lg.prints.length + fuel) ∧
    (fitDefault ops st x yt method = fit ops st x yt method 20) := by
  refine ⟨rfl, ?_, ?_, ?_, rfl⟩
  · intro h1 h2 h3 h4
    simp only [nrLoop, h1, h2, h3, if_pos h4]
  · intro h1 h2 h3 h4
    simp only [nrLoop, h1, h2, h3, if_neg h4]
  · exact (nrLoop_log ops vb r c x y f fuel i p oldv lg).2.2.1

theorem C1_witness :
    dotChk [[1]] [[1]] = .ok (matMul [[1]] [[1]]) ∧
    loopStep opsId [[1]] [[1]] (matMul [[1]] [[1]]) [[1]]
      (objOpt opsId 1 1 [[1]] [[1]]) = some [[1]] ∧
    objEval opsId 1 1 [[1]] [[1]] [[1]]
      ((if false then Log.nil.say (toString 0) else Log.nil).op .dot) =
      (.ok 0, ⟨[], [], [.dot, .reshape, .dot]⟩) ∧
    ((0 : ℚ) < 0 + 1) ∧
    nrLoop opsId false 1 1 [[1]] [[1]] (objOpt opsId 1 1 [[1]] [[1]]) 4 0 [[1]] 0 Log.nil =
      (.ok [[1]], ⟨[], [], [.dot, .reshape, .dot]⟩) := by
  refine ⟨rfl, rfl, rfl, by norm_num, ?_⟩
  exact (C1_nr_stopping_rule opsId false 1 1 [[1]] [[1]] (objOpt opsId 1 1 [[1]] [[1]])
      3 0 [[1]] [[1]] (matMul [[1]] [[1]]) 0 0 Log.nil ⟨[], [], [.dot, .reshape, .dot]⟩
      ⟨1, 1, false, [[1]]⟩ (.arr [[1]]) "X").2.1
    rfl rfl rfl (by norm_num)

end Esnlm
